import Mathlib

/-!
Verification of the raylet `SchedulingQueue` (src/ray/raylet/scheduling_queue.h).

The repository provides the class interface: six ordered buckets of tasks
(`uncreated_actor_methods_`, `waiting_tasks_`, `ready_tasks_`,
`scheduled_tasks_`, `running_tasks_`, `blocked_tasks_`, each a `std::list<Task>`),
seven accessors, six bulk insert operations and one cross-bucket bulk remove.
Only the header is present in the repository, so the bodies of the operations
are modelled from the specification; the state layout, the constructor
(`SchedulingQueue() {}`, which default-initializes the six lists to empty) and
the signatures come from the header itself.
-/

namespace Raylet

/-- TaskID: an opaque, equality-comparable, hashable identifier, modelled as `Nat`. -/
abbrev TaskID := Nat

/-- Task: an opaque record carrying a retrievable `TaskID` and an opaque payload
(modelled as a `Nat`); the queue never interprets the payload. -/
structure Task where
  taskId : TaskID
  payload : Nat
deriving DecidableEq, Repr

/-- The state of a `SchedulingQueue`: six ordered sequences of `Task`, one per
bucket, named after the private fields of the class. -/
structure SchedulingQueue where
  uncreated_actor_methods_ : List Task
  waiting_tasks_ : List Task
  ready_tasks_ : List Task
  scheduled_tasks_ : List Task
  running_tasks_ : List Task
  blocked_tasks_ : List Task
deriving DecidableEq, Repr

/-- The constructor `SchedulingQueue() {}`: every `std::list` field is
default-initialized, i.e. empty. -/
def SchedulingQueue.new : SchedulingQueue :=
  { uncreated_actor_methods_ := []
    waiting_tasks_ := []
    ready_tasks_ := []
    scheduled_tasks_ := []
    running_tasks_ := []
    blocked_tasks_ := [] }

/-- The six buckets of the task lifecycle. -/
inductive Bucket where
  | uncreatedActorMethods
  | waiting
  | ready
  | scheduled
  | running
  | blocked
deriving DecidableEq, Repr

/-- Read one bucket of the queue state. -/
def SchedulingQueue.getBucket (q : SchedulingQueue) : Bucket → List Task
  | Bucket.uncreatedActorMethods => q.uncreated_actor_methods_
  | Bucket.waiting => q.waiting_tasks_
  | Bucket.ready => q.ready_tasks_
  | Bucket.scheduled => q.scheduled_tasks_
  | Bucket.running => q.running_tasks_
  | Bucket.blocked => q.blocked_tasks_

/-- Replace one bucket of the queue state, leaving the other five untouched. -/
def SchedulingQueue.setBucket (q : SchedulingQueue) : Bucket → List Task → SchedulingQueue
  | Bucket.uncreatedActorMethods, l => { q with uncreated_actor_methods_ := l }
  | Bucket.waiting, l => { q with waiting_tasks_ := l }
  | Bucket.ready, l => { q with ready_tasks_ := l }
  | Bucket.scheduled, l => { q with scheduled_tasks_ := l }
  | Bucket.running, l => { q with running_tasks_ := l }
  | Bucket.blocked, l => { q with blocked_tasks_ := l }

/-- All tasks currently held by the queue, bucket by bucket in field order. -/
def SchedulingQueue.allTasks (q : SchedulingQueue) : List Task :=
  q.uncreated_actor_methods_ ++ q.waiting_tasks_ ++ q.ready_tasks_ ++
    q.scheduled_tasks_ ++ q.running_tasks_ ++ q.blocked_tasks_

/-- The TaskIDs currently held by the queue, bucket by bucket in field order. -/
def SchedulingQueue.allIds (q : SchedulingQueue) : List TaskID :=
  q.allTasks.map Task.taskId

/-- Accessor `GetUncreatedActorMethods`. Modelled from the spec: the body is not
in the repository; the spec says each accessor returns a read-only view of its
bucket in insertion order. -/
def SchedulingQueue.GetUncreatedActorMethods (q : SchedulingQueue) : List Task :=
  q.uncreated_actor_methods_

/-- Accessor `GetWaitingTasks`. Modelled from the spec: returns the `waiting` bucket. -/
def SchedulingQueue.GetWaitingTasks (q : SchedulingQueue) : List Task :=
  q.waiting_tasks_

/-- Accessor `GetReadyTasks`. Modelled from the spec: returns the `ready` bucket. -/
def SchedulingQueue.GetReadyTasks (q : SchedulingQueue) : List Task :=
  q.ready_tasks_

/-- Accessor `GetReadyMethods`. Modelled from the spec: the header declares two
accessors onto the ready state but only one `ready_tasks_` field, and the spec
states both return the same underlying bucket. -/
def SchedulingQueue.GetReadyMethods (q : SchedulingQueue) : List Task :=
  q.ready_tasks_

/-- Accessor `GetScheduledTasks`. Modelled from the spec: returns the `scheduled` bucket. -/
def SchedulingQueue.GetScheduledTasks (q : SchedulingQueue) : List Task :=
  q.scheduled_tasks_

/-- Accessor `GetRunningTasks`. Modelled from the spec: returns the `running` bucket. -/
def SchedulingQueue.GetRunningTasks (q : SchedulingQueue) : List Task :=
  q.running_tasks_

/-- Accessor `GetBlockedTasks`. Modelled from the spec: returns the `blocked` bucket. -/
def SchedulingQueue.GetBlockedTasks (q : SchedulingQueue) : List Task :=
  q.blocked_tasks_

/-- Shared body of the six `Queue*` insert operations. Modelled from the spec:
the bodies are not in the repository. `queue_B(tasks)` appends each task, in
the given order, to the tail of bucket `B`; its preconditions are that the
input carries no duplicate TaskID and that no input TaskID is already present
in any bucket, and a violation is a programming error signalled by a fatal
assertion, modelled as `none`. -/
def queueInto (b : Bucket) (q : SchedulingQueue) (tasks : List Task) :
    Option SchedulingQueue :=
  if (tasks.map Task.taskId).Nodup ∧ ∀ t ∈ tasks, t.taskId ∉ q.allIds then
    some (q.setBucket b (q.getBucket b ++ tasks))
  else
    none

/-- Insert operation `QueueUncreatedActorMethods`. Modelled from the spec (see `queueInto`). -/
def SchedulingQueue.QueueUncreatedActorMethods (q : SchedulingQueue) (tasks : List Task) :
    Option SchedulingQueue :=
  queueInto Bucket.uncreatedActorMethods q tasks

/-- Insert operation `QueueWaitingTasks`. Modelled from the spec (see `queueInto`). -/
def SchedulingQueue.QueueWaitingTasks (q : SchedulingQueue) (tasks : List Task) :
    Option SchedulingQueue :=
  queueInto Bucket.waiting q tasks

/-- Insert operation `QueueReadyTasks`. Modelled from the spec (see `queueInto`). -/
def SchedulingQueue.QueueReadyTasks (q : SchedulingQueue) (tasks : List Task) :
    Option SchedulingQueue :=
  queueInto Bucket.ready q tasks

/-- Insert operation `QueueScheduledTasks`. Modelled from the spec (see `queueInto`). -/
def SchedulingQueue.QueueScheduledTasks (q : SchedulingQueue) (tasks : List Task) :
    Option SchedulingQueue :=
  queueInto Bucket.scheduled q tasks

/-- Insert operation `QueueRunningTasks`. Modelled from the spec (see `queueInto`). -/
def SchedulingQueue.QueueRunningTasks (q : SchedulingQueue) (tasks : List Task) :
    Option SchedulingQueue :=
  queueInto Bucket.running q tasks

/-- Insert operation `QueueBlockedTasks`. Modelled from the spec (see `queueInto`). -/
def SchedulingQueue.QueueBlockedTasks (q : SchedulingQueue) (tasks : List Task) :
    Option SchedulingQueue :=
  queueInto Bucket.blocked q tasks

/-- Bulk remove `RemoveTasks`. Modelled from the spec: the body is not in the
repository. The argument is a set of TaskIDs (an `std::unordered_set` in the
header), modelled as a duplicate-free list. Every task whose ID is requested is
deleted in place from whichever bucket holds it, and the removed tasks are
returned (search and return order across buckets is an implementation detail;
this model collects them in bucket order). Preconditions: the input has no
duplicates and every requested ID is currently held by some bucket; a violation
is a programming error signalled by a fatal assertion, modelled as `none`. -/
def SchedulingQueue.RemoveTasks (q : SchedulingQueue) (ids : List TaskID) :
    Option (List Task × SchedulingQueue) :=
  if ids.Nodup ∧ ∀ i ∈ ids, i ∈ q.allIds then
    some (q.allTasks.filter (fun t => t.taskId ∈ ids),
      { uncreated_actor_methods_ := q.uncreated_actor_methods_.filter (fun t => t.taskId ∉ ids)
        waiting_tasks_ := q.waiting_tasks_.filter (fun t => t.taskId ∉ ids)
        ready_tasks_ := q.ready_tasks_.filter (fun t => t.taskId ∉ ids)
        scheduled_tasks_ := q.scheduled_tasks_.filter (fun t => t.taskId ∉ ids)
        running_tasks_ := q.running_tasks_.filter (fun t => t.taskId ∉ ids)
        blocked_tasks_ := q.blocked_tasks_.filter (fun t => t.taskId ∉ ids) })
  else
    none

/-- One legal operation on the queue: a bulk insert into one bucket, or a bulk
remove (whose returned tasks are handed to the caller and dropped from the
state-evolution point of view). -/
inductive Op where
  | enqueue (b : Bucket) (tasks : List Task)
  | remove (ids : List TaskID)
deriving DecidableEq, Repr

/-- Apply one operation to a queue state; `none` models a fatal assertion. -/
def applyOp (q : SchedulingQueue) : Op → Option SchedulingQueue
  | Op.enqueue b tasks => queueInto b q tasks
  | Op.remove ids => (q.RemoveTasks ids).map Prod.snd

/-- Run a sequence of operations from a starting state; `none` as soon as one
operation hits a fatal assertion. -/
def runOps (q : SchedulingQueue) : List Op → Option SchedulingQueue
  | [] => some q
  | op :: ops =>
    match applyOp q op with
    | some q' => runOps q' ops
    | none => none

/-! Helper lemmas shared by the claim theorems. -/

/-- Filtering tasks on a predicate of their id commutes with taking ids
(kept version, used for the surviving tasks). -/
theorem map_taskId_filter_not_mem (ids : List TaskID) (l : List Task) :
    (l.filter (fun t => t.taskId ∉ ids)).map Task.taskId
      = (l.map Task.taskId).filter (fun i => i ∉ ids) := by
  induction l with
  | nil => rfl
  | cons a l ih =>
    simp only [decide_not] at ih ⊢
    by_cases h : a.taskId ∈ ids <;> simp [List.filter_cons, h, ih]

/-- Filtering tasks on a predicate of their id commutes with taking ids
(removed version, used for the removed tasks). -/
theorem map_taskId_filter_mem (ids : List TaskID) (l : List Task) :
    (l.filter (fun t => t.taskId ∈ ids)).map Task.taskId
      = (l.map Task.taskId).filter (fun i => i ∈ ids) := by
  induction l with
  | nil => rfl
  | cons a l ih =>
    by_cases h : a.taskId ∈ ids <;> simp [List.filter_cons, h, ih]

/-- A successful insert implies its precondition held. -/
theorem queueInto_precond {b : Bucket} {q q' : SchedulingQueue} {ts : List Task}
    (h : queueInto b q ts = some q') :
    (ts.map Task.taskId).Nodup ∧ ∀ t ∈ ts, t.taskId ∉ q.allIds := by
  by_cases hc : (ts.map Task.taskId).Nodup ∧ ∀ t ∈ ts, t.taskId ∉ q.allIds
  · exact hc
  · rw [queueInto, if_neg hc] at h
    exact absurd h (by simp)

/-- A successful insert produces exactly the old state with the chosen bucket
extended by the input, in order. -/
theorem queueInto_eq {b : Bucket} {q q' : SchedulingQueue} {ts : List Task}
    (h : queueInto b q ts = some q') :
    q' = q.setBucket b (q.getBucket b ++ ts) := by
  rw [queueInto, if_pos (queueInto_precond h)] at h
  exact (Option.some.injEq _ _ ▸ h).symm

/-- Multiset accounting of a successful insert: every TaskID's multiplicity
across the whole queue grows by its multiplicity in the input. -/
theorem count_allIds_queueInto {b : Bucket} {q q' : SchedulingQueue} {ts : List Task}
    (h : queueInto b q ts = some q') (i : TaskID) :
    q'.allIds.count i = q.allIds.count i + (ts.map Task.taskId).count i := by
  rw [queueInto_eq h]
  cases b <;>
    simp [SchedulingQueue.allIds, SchedulingQueue.allTasks, SchedulingQueue.getBucket,
      SchedulingQueue.setBucket, List.count_append] <;>
    omega

/-- A successful insert preserves the global no-duplicate-TaskID invariant. -/
theorem queueInto_nodup {b : Bucket} {q q' : SchedulingQueue} {ts : List Task}
    (h : queueInto b q ts = some q') (hq : q.allIds.Nodup) : q'.allIds.Nodup := by
  obtain ⟨hnd, hdisj⟩ := queueInto_precond h
  rw [List.nodup_iff_count_le_one] at hq hnd ⊢
  intro i
  rw [count_allIds_queueInto h i]
  by_cases hi : i ∈ ts.map Task.taskId
  · obtain ⟨t, ht, rfl⟩ := List.mem_map.1 hi
    have : t.taskId ∉ q.allIds := hdisj t ht
    have hz : q.allIds.count t.taskId = 0 := List.count_eq_zero.2 this
    have := hnd t.taskId
    omega
  · have hz : (ts.map Task.taskId).count i = 0 := List.count_eq_zero.2 hi
    have := hq i
    omega

/-- A successful bulk remove implies its precondition held. -/
theorem RemoveTasks_precond {q : SchedulingQueue} {ids : List TaskID}
    {res : List Task × SchedulingQueue}
    (h : q.RemoveTasks ids = some res) :
    ids.Nodup ∧ ∀ i ∈ ids, i ∈ q.allIds := by
  by_cases hc : ids.Nodup ∧ ∀ i ∈ ids, i ∈ q.allIds
  · exact hc
  · rw [SchedulingQueue.RemoveTasks, if_neg hc] at h
    exact absurd h (by simp)

/-- A successful bulk remove returns the held tasks whose ids were requested,
in bucket order, and keeps in each bucket exactly the tasks whose ids were not
requested. -/
theorem RemoveTasks_eq {q : SchedulingQueue} {ids : List TaskID}
    {res : List Task × SchedulingQueue}
    (h : q.RemoveTasks ids = some res) :
    res = (q.allTasks.filter (fun t => t.taskId ∈ ids),
      { uncreated_actor_methods_ := q.uncreated_actor_methods_.filter (fun t => t.taskId ∉ ids)
        waiting_tasks_ := q.waiting_tasks_.filter (fun t => t.taskId ∉ ids)
        ready_tasks_ := q.ready_tasks_.filter (fun t => t.taskId ∉ ids)
        scheduled_tasks_ := q.scheduled_tasks_.filter (fun t => t.taskId ∉ ids)
        running_tasks_ := q.running_tasks_.filter (fun t => t.taskId ∉ ids)
        blocked_tasks_ := q.blocked_tasks_.filter (fun t => t.taskId ∉ ids) }) := by
  rw [SchedulingQueue.RemoveTasks, if_pos (RemoveTasks_precond h)] at h
  exact (Option.some.injEq _ _ ▸ h).symm

/-- After a successful bulk remove the queue holds exactly the previously held
TaskIDs that were not requested, in the same global order. -/
theorem allIds_RemoveTasks {q : SchedulingQueue} {ids : List TaskID}
    {rs : List Task} {q' : SchedulingQueue}
    (h : q.RemoveTasks ids = some (rs, q')) :
    q'.allIds = q.allIds.filter (fun i => i ∉ ids) := by
  have he := RemoveTasks_eq h
  have hq' : q' = (Prod.mk rs q').snd := rfl
  rw [hq', he]
  simp only [SchedulingQueue.allIds, SchedulingQueue.allTasks, List.map_append,
    List.filter_append, map_taskId_filter_not_mem]

/-- A successful bulk remove preserves the global no-duplicate-TaskID invariant. -/
theorem RemoveTasks_nodup {q : SchedulingQueue} {ids : List TaskID}
    {rs : List Task} {q' : SchedulingQueue}
    (h : q.RemoveTasks ids = some (rs, q')) (hq : q.allIds.Nodup) :
    q'.allIds.Nodup := by
  rw [allIds_RemoveTasks h]
  exact hq.filter _

/-- Every single legal operation preserves the global no-duplicate-TaskID
invariant. -/
theorem applyOp_nodup {q q' : SchedulingQueue} {op : Op}
    (h : applyOp q op = some q') (hq : q.allIds.Nodup) : q'.allIds.Nodup := by
  cases op with
  | enqueue b ts => exact queueInto_nodup h hq
  | remove ids =>
    simp only [applyOp, Option.map_eq_some'] at h
    obtain ⟨⟨rs, q''⟩, hrem, hsnd⟩ := h
    cases hsnd
    exact RemoveTasks_nodup hrem hq

/-- Running any sequence of legal operations preserves the global
no-duplicate-TaskID invariant. -/
theorem runOps_nodup : ∀ (ops : List Op) (q q' : SchedulingQueue),
    runOps q ops = some q' → q.allIds.Nodup → q'.allIds.Nodup := by
  intro ops
  induction ops with
  | nil =>
    intro q q' h hq
    simp only [runOps] at h
    cases h
    exact hq
  | cons op ops ih =>
    intro q q' h hq
    simp only [runOps] at h
    cases hop : applyOp q op with
    | none => rw [hop] at h; exact absurd h (by simp)
    | some q1 =>
      rw [hop] at h
      exact ih q1 q' h (applyOp_nodup hop hq)

/-- A single bucket's TaskID multiplicities are bounded by the whole queue's. -/
theorem bucket_count_le (q : SchedulingQueue) (i : TaskID) (b : Bucket) :
    ((q.getBucket b).map Task.taskId).count i ≤ q.allIds.count i := by
  cases b <;>
    simp [SchedulingQueue.allIds, SchedulingQueue.allTasks, SchedulingQueue.getBucket,
      List.map_append, List.count_append] <;>
    omega

/-- Two distinct buckets together cannot hold a TaskID more often than the
whole queue does. -/
theorem two_bucket_count_le (q : SchedulingQueue) (i : TaskID) {b b' : Bucket}
    (hne : b ≠ b') :
    ((q.getBucket b).map Task.taskId).count i
      + ((q.getBucket b').map Task.taskId).count i ≤ q.allIds.count i := by
  cases b <;> cases b' <;>
    first
      | exact absurd rfl hne
      | (simp [SchedulingQueue.allIds, SchedulingQueue.allTasks, SchedulingQueue.getBucket,
          List.map_append, List.count_append] <;> omega)

/-! The claims. -/

/-- C1: Disjointness invariant: starting from an empty queue, after any
sequence of legal operations (inserts and removes satisfying their
preconditions, i.e. succeeding), every TaskID appears in at most one of the
six buckets, and within any single bucket each TaskID appears at most once. -/
theorem disjointness_invariant (ops : List Op) (q' : SchedulingQueue)
    (h : runOps SchedulingQueue.new ops = some q') :
    (∀ b : Bucket, ((q'.getBucket b).map Task.taskId).Nodup) ∧
    ∀ b b' : Bucket, b ≠ b' →
      ∀ i : TaskID, i ∈ (q'.getBucket b).map Task.taskId →
        i ∉ (q'.getBucket b').map Task.taskId := by
  have hq : q'.allIds.Nodup := runOps_nodup ops SchedulingQueue.new q' h (by decide)
  rw [List.nodup_iff_count_le_one] at hq
  constructor
  · intro b
    rw [List.nodup_iff_count_le_one]
    intro i
    exact le_trans (bucket_count_le q' i b) (hq i)
  · intro b b' hne i hib hib'
    have h1 : 0 < ((q'.getBucket b).map Task.taskId).count i := List.count_pos_iff.2 hib
    have h2 : 0 < ((q'.getBucket b').map Task.taskId).count i := List.count_pos_iff.2 hib'
    have h3 := two_bucket_count_le q' i hne
    have h4 := hq i
    omega

/-- Witness for C1 at a concrete run: enqueue two tasks into waiting, remove
one, re-enqueue it into ready. -/
theorem disjointness_invariant_witness :
    (runOps SchedulingQueue.new
        [Op.enqueue Bucket.waiting [⟨1, 10⟩, ⟨2, 20⟩], Op.remove [1],
          Op.enqueue Bucket.ready [⟨1, 10⟩]]
      = some { SchedulingQueue.new with waiting_tasks_ := [⟨2, 20⟩], ready_tasks_ := [⟨1, 10⟩] }) ∧
    ((∀ b : Bucket,
        ((SchedulingQueue.getBucket
            { SchedulingQueue.new with waiting_tasks_ := [⟨2, 20⟩], ready_tasks_ := [⟨1, 10⟩] }
            b).map Task.taskId).Nodup) ∧
      ∀ b b' : Bucket, b ≠ b' →
        ∀ i : TaskID,
          i ∈ (SchedulingQueue.getBucket
              { SchedulingQueue.new with waiting_tasks_ := [⟨2, 20⟩], ready_tasks_ := [⟨1, 10⟩] }
              b).map Task.taskId →
          i ∉ (SchedulingQueue.getBucket
              { SchedulingQueue.new with waiting_tasks_ := [⟨2, 20⟩], ready_tasks_ := [⟨1, 10⟩] }
              b').map Task.taskId) :=
  ⟨by decide,
    disjointness_invariant
      [Op.enqueue Bucket.waiting [⟨1, 10⟩, ⟨2, 20⟩], Op.remove [1],
        Op.enqueue Bucket.ready [⟨1, 10⟩]]
      { SchedulingQueue.new with waiting_tasks_ := [⟨2, 20⟩], ready_tasks_ := [⟨1, 10⟩] }
      (by decide)⟩

/-- C2: Total accounting under bulk remove: on a queue state satisfying the
no-duplicate invariant, removing a duplicate-free set S of TaskIDs all of
which are held by some bucket returns exactly |S| tasks whose TaskIDs are a
permutation of S, and each bucket keeps exactly its tasks whose ids were not
requested. -/
theorem remove_total_accounting (q : SchedulingQueue) (ids : List TaskID)
    (hq : q.allIds.Nodup) (hnd : ids.Nodup) (hsub : ∀ i ∈ ids, i ∈ q.allIds) :
    ∃ rs q', q.RemoveTasks ids = some (rs, q')
      ∧ rs.length = ids.length
      ∧ (rs.map Task.taskId).Perm ids
      ∧ ∀ b : Bucket, q'.getBucket b = (q.getBucket b).filter (fun t => t.taskId ∉ ids) := by
  refine ⟨q.allTasks.filter (fun t => t.taskId ∈ ids),
    { uncreated_actor_methods_ := q.uncreated_actor_methods_.filter (fun t => t.taskId ∉ ids)
      waiting_tasks_ := q.waiting_tasks_.filter (fun t => t.taskId ∉ ids)
      ready_tasks_ := q.ready_tasks_.filter (fun t => t.taskId ∉ ids)
      scheduled_tasks_ := q.scheduled_tasks_.filter (fun t => t.taskId ∉ ids)
      running_tasks_ := q.running_tasks_.filter (fun t => t.taskId ∉ ids)
      blocked_tasks_ := q.blocked_tasks_.filter (fun t => t.taskId ∉ ids) },
    ?_, ?_, ?_, ?_⟩
  · rw [SchedulingQueue.RemoveTasks, if_pos ⟨hnd, hsub⟩]
  · have hperm : ((q.allTasks.filter (fun t => t.taskId ∈ ids)).map Task.taskId).Perm ids := by
      rw [map_taskId_filter_mem]
      refine (List.perm_ext_iff_of_nodup (hq.filter _) hnd).2 ?_
      intro i
      simp only [List.mem_filter, decide_eq_true_eq]
      exact ⟨fun hx => hx.2, fun hx => ⟨hsub i hx, hx⟩⟩
    have := hperm.length_eq
    simpa using this
  · rw [map_taskId_filter_mem]
    refine (List.perm_ext_iff_of_nodup (hq.filter _) hnd).2 ?_
    intro i
    simp only [List.mem_filter, decide_eq_true_eq]
    exact ⟨fun hx => hx.2, fun hx => ⟨hsub i hx, hx⟩⟩
  · intro b
    cases b <;> rfl

/-- Witness for C2: a queue holding task 1 in ready and task 2 in running,
removing the set consisting of both ids. -/
theorem remove_total_accounting_witness :
    (SchedulingQueue.allIds
        { SchedulingQueue.new with ready_tasks_ := [⟨1, 10⟩], running_tasks_ := [⟨2, 20⟩] }).Nodup ∧
    ([2, 1] : List TaskID).Nodup ∧
    (∀ i ∈ ([2, 1] : List TaskID),
        i ∈ SchedulingQueue.allIds
          { SchedulingQueue.new with ready_tasks_ := [⟨1, 10⟩], running_tasks_ := [⟨2, 20⟩] }) ∧
    (∃ rs q',
      SchedulingQueue.RemoveTasks
          { SchedulingQueue.new with ready_tasks_ := [⟨1, 10⟩], running_tasks_ := [⟨2, 20⟩] }
          [2, 1] = some (rs, q')
        ∧ rs.length = ([2, 1] : List TaskID).length
        ∧ (rs.map Task.taskId).Perm [2, 1]
        ∧ ∀ b : Bucket, q'.getBucket b
            = ((SchedulingQueue.getBucket
                { SchedulingQueue.new with ready_tasks_ := [⟨1, 10⟩], running_tasks_ := [⟨2, 20⟩] }
                b).filter (fun t => t.taskId ∉ ([2, 1] : List TaskID)))) :=
  ⟨by decide, by decide, by decide,
    remove_total_accounting
      { SchedulingQueue.new with ready_tasks_ := [⟨1, 10⟩], running_tasks_ := [⟨2, 20⟩] }
      [2, 1] (by decide) (by decide) (by decide)⟩

/-- C3: Insert is an append with no cross-bucket effect: for every bucket,
queue state and input satisfying the insert preconditions, the insert
operation succeeds and produces exactly the old state with that bucket
extended by the input tasks in the given order, all other buckets unchanged. -/
theorem insert_append_frame (q : SchedulingQueue) (ts : List Task)
    (hnd : (ts.map Task.taskId).Nodup) (hdisj : ∀ t ∈ ts, t.taskId ∉ q.allIds) :
    q.QueueUncreatedActorMethods ts
        = some { q with uncreated_actor_methods_ := q.uncreated_actor_methods_ ++ ts }
    ∧ q.QueueWaitingTasks ts = some { q with waiting_tasks_ := q.waiting_tasks_ ++ ts }
    ∧ q.QueueReadyTasks ts = some { q with ready_tasks_ := q.ready_tasks_ ++ ts }
    ∧ q.QueueScheduledTasks ts = some { q with scheduled_tasks_ := q.scheduled_tasks_ ++ ts }
    ∧ q.QueueRunningTasks ts = some { q with running_tasks_ := q.running_tasks_ ++ ts }
    ∧ q.QueueBlockedTasks ts = some { q with blocked_tasks_ := q.blocked_tasks_ ++ ts } := by
  have hgen : ∀ b : Bucket,
      queueInto b q ts = some (q.setBucket b (q.getBucket b ++ ts)) := by
    intro b
    rw [queueInto, if_pos ⟨hnd, hdisj⟩]
  exact ⟨hgen Bucket.uncreatedActorMethods, hgen Bucket.waiting, hgen Bucket.ready,
    hgen Bucket.scheduled, hgen Bucket.running, hgen Bucket.blocked⟩

/-- Witness for C3: insert two fresh tasks into a queue already holding one
task in waiting. -/
theorem insert_append_frame_witness :
    (([(⟨2, 20⟩ : Task), ⟨3, 30⟩].map Task.taskId).Nodup) ∧
    (∀ t ∈ [(⟨2, 20⟩ : Task), ⟨3, 30⟩],
        t.taskId ∉ SchedulingQueue.allIds
          { SchedulingQueue.new with waiting_tasks_ := [⟨1, 10⟩] }) ∧
    (SchedulingQueue.QueueReadyTasks { SchedulingQueue.new with waiting_tasks_ := [⟨1, 10⟩] }
        [⟨2, 20⟩, ⟨3, 30⟩]
      = some { SchedulingQueue.new with
          waiting_tasks_ := [⟨1, 10⟩]
          ready_tasks_ := [⟨2, 20⟩, ⟨3, 30⟩] }) :=
  ⟨by decide, by decide,
    (insert_append_frame { SchedulingQueue.new with waiting_tasks_ := [⟨1, 10⟩] }
      [⟨2, 20⟩, ⟨3, 30⟩] (by decide) (by decide)).2.2.1⟩

/-- C4: Order preservation under remove: a successful bulk remove leaves each
bucket equal to its old contents with the requested ids deleted in place, so
the surviving tasks of every bucket form a sublist of (appear in the same
relative order as in) the old bucket. -/
theorem remove_order_preservation (q : SchedulingQueue) (ids : List TaskID)
    (rs : List Task) (q' : SchedulingQueue) (h : q.RemoveTasks ids = some (rs, q')) :
    ∀ b : Bucket, q'.getBucket b = (q.getBucket b).filter (fun t => t.taskId ∉ ids)
      ∧ List.Sublist (q'.getBucket b) (q.getBucket b) := by
  have he := RemoveTasks_eq h
  simp only [Prod.mk.injEq] at he
  obtain ⟨-, hq'⟩ := he
  subst hq'
  intro b
  cases b <;> exact ⟨rfl, List.filter_sublist _⟩

/-- Witness for C4: remove the middle task of a three-task waiting bucket. -/
theorem remove_order_preservation_witness :
    (SchedulingQueue.RemoveTasks
        { SchedulingQueue.new with waiting_tasks_ := [⟨1, 10⟩, ⟨2, 20⟩, ⟨3, 30⟩] } [2]
      = some ([⟨2, 20⟩],
          { SchedulingQueue.new with waiting_tasks_ := [⟨1, 10⟩, ⟨3, 30⟩] })) ∧
    (∀ b : Bucket,
      SchedulingQueue.getBucket
          { SchedulingQueue.new with waiting_tasks_ := [⟨1, 10⟩, ⟨3, 30⟩] } b
        = (SchedulingQueue.getBucket
            { SchedulingQueue.new with waiting_tasks_ := [⟨1, 10⟩, ⟨2, 20⟩, ⟨3, 30⟩] }
            b).filter (fun t => t.taskId ∉ ([2] : List TaskID))
      ∧ List.Sublist
          (SchedulingQueue.getBucket
            { SchedulingQueue.new with waiting_tasks_ := [⟨1, 10⟩, ⟨3, 30⟩] } b)
          (SchedulingQueue.getBucket
            { SchedulingQueue.new with waiting_tasks_ := [⟨1, 10⟩, ⟨2, 20⟩, ⟨3, 30⟩] } b)) :=
  ⟨by decide,
    remove_order_preservation
      { SchedulingQueue.new with waiting_tasks_ := [⟨1, 10⟩, ⟨2, 20⟩, ⟨3, 30⟩] } [2]
      [⟨2, 20⟩] { SchedulingQueue.new with waiting_tasks_ := [⟨1, 10⟩, ⟨3, 30⟩] }
      (by decide)⟩

/-- C5: Remove-miss is a detected fatal error: if some requested TaskID is
present in no bucket, the bulk remove fails (returns `none`, the model of the
fatal assertion) instead of returning normally. -/
theorem remove_miss_fatal (q : SchedulingQueue) (ids : List TaskID) (i : TaskID)
    (hi : i ∈ ids) (hmiss : i ∉ q.allIds) : q.RemoveTasks ids = none := by
  rw [SchedulingQueue.RemoveTasks, if_neg]
  rintro ⟨-, hsub⟩
  exact hmiss (hsub i hi)

/-- Witness for C5, the spec's own scenario: removing an id from an empty
queue fails. -/
theorem remove_miss_fatal_witness :
    ((5 : TaskID) ∈ ([5] : List TaskID)) ∧
    ((5 : TaskID) ∉ SchedulingQueue.new.allIds) ∧
    SchedulingQueue.new.RemoveTasks [5] = none :=
  ⟨by decide, by decide, remove_miss_fatal SchedulingQueue.new [5] 5 (by decide) (by decide)⟩

/-- C6: Insert-collision is a detected fatal error: if some input task's
TaskID is already present in any bucket, every one of the six insert
operations fails (returns `none`, the model of the fatal assertion) instead
of inserting or silently ignoring the task. -/
theorem insert_collision_fatal (q : SchedulingQueue) (ts : List Task) (t : Task)
    (ht : t ∈ ts) (hcol : t.taskId ∈ q.allIds) :
    q.QueueUncreatedActorMethods ts = none
    ∧ q.QueueWaitingTasks ts = none
    ∧ q.QueueReadyTasks ts = none
    ∧ q.QueueScheduledTasks ts = none
    ∧ q.QueueRunningTasks ts = none
    ∧ q.QueueBlockedTasks ts = none := by
  have hgen : ∀ b : Bucket, queueInto b q ts = none := by
    intro b
    rw [queueInto, if_neg]
    rintro ⟨-, hdisj⟩
    exact hdisj t ht hcol
  exact ⟨hgen Bucket.uncreatedActorMethods, hgen Bucket.waiting, hgen Bucket.ready,
    hgen Bucket.scheduled, hgen Bucket.running, hgen Bucket.blocked⟩

/-- Witness for C6, the spec's own scenario: task 1 sits in waiting and is
queued into ready without having been removed first. -/
theorem insert_collision_fatal_witness :
    ((⟨1, 10⟩ : Task) ∈ [(⟨1, 10⟩ : Task)]) ∧
    ((⟨1, 10⟩ : Task).taskId ∈ SchedulingQueue.allIds
        { SchedulingQueue.new with waiting_tasks_ := [⟨1, 10⟩] }) ∧
    SchedulingQueue.QueueReadyTasks { SchedulingQueue.new with waiting_tasks_ := [⟨1, 10⟩] }
        [⟨1, 10⟩] = none :=
  ⟨by decide, by decide,
    (insert_collision_fatal { SchedulingQueue.new with waiting_tasks_ := [⟨1, 10⟩] }
      [⟨1, 10⟩] ⟨1, 10⟩ (by decide) (by decide)).2.2.1⟩

/-- C7: Round-trip: starting from an empty queue, inserting a duplicate-free
task sequence into any bucket and then bulk-removing exactly its ids succeeds,
returns a permutation of the inserted tasks, and leaves all six buckets empty
(the state is the freshly constructed queue again). -/
theorem round_trip (b : Bucket) (ts : List Task)
    (hnd : (ts.map Task.taskId).Nodup) :
    ∃ q1 rs, queueInto b SchedulingQueue.new ts = some q1
      ∧ q1.RemoveTasks (ts.map Task.taskId) = some (rs, SchedulingQueue.new)
      ∧ rs.Perm ts := by
  have hpre : ∀ t ∈ ts, t.taskId ∉ SchedulingQueue.new.allIds := by
    intro t _ hmem
    simp [SchedulingQueue.allIds, SchedulingQueue.allTasks, SchedulingQueue.new] at hmem
  have hq1 : queueInto b SchedulingQueue.new ts
      = some (SchedulingQueue.new.setBucket b (SchedulingQueue.new.getBucket b ++ ts)) := by
    rw [queueInto, if_pos ⟨hnd, hpre⟩]
  have hkeep : ts.filter (fun t => t.taskId ∈ ts.map Task.taskId) = ts := by
    rw [List.filter_eq_self]
    intro t ht
    simpa using List.mem_map_of_mem Task.taskId ht
  have hdrop : ts.filter (fun t => t.taskId ∉ ts.map Task.taskId) = [] := by
    rw [List.filter_eq_nil_iff]
    intro t ht
    simpa using List.mem_map_of_mem Task.taskId ht
  refine ⟨_, ts, hq1, ?_, List.Perm.refl ts⟩
  cases b
  all_goals
    rw [SchedulingQueue.RemoveTasks, if_pos]
    · simp only [SchedulingQueue.new, SchedulingQueue.setBucket, SchedulingQueue.getBucket,
        SchedulingQueue.allTasks, List.nil_append, List.append_nil, List.filter_nil]
      rw [hkeep, hdrop]
    · refine ⟨hnd, fun i hi => ?_⟩
      simpa [SchedulingQueue.allIds, SchedulingQueue.allTasks, SchedulingQueue.setBucket,
        SchedulingQueue.getBucket, SchedulingQueue.new] using hi

/-- Witness for C7: two tasks through the scheduled bucket. -/
theorem round_trip_witness :
    (([(⟨1, 10⟩ : Task), ⟨2, 20⟩].map Task.taskId).Nodup) ∧
    (∃ q1 rs, queueInto Bucket.scheduled SchedulingQueue.new [⟨1, 10⟩, ⟨2, 20⟩] = some q1
      ∧ q1.RemoveTasks ([(⟨1, 10⟩ : Task), ⟨2, 20⟩].map Task.taskId)
          = some (rs, SchedulingQueue.new)
      ∧ rs.Perm [⟨1, 10⟩, ⟨2, 20⟩]) :=
  ⟨by decide, round_trip Bucket.scheduled [⟨1, 10⟩, ⟨2, 20⟩] (by decide)⟩

/-- C8: Empty remove is a no-op: on every queue state, removing the empty set
of ids succeeds, returns the empty sequence, and leaves all six buckets
unchanged. -/
theorem empty_remove_noop (q : SchedulingQueue) : q.RemoveTasks [] = some ([], q) := by
  rw [SchedulingQueue.RemoveTasks, if_pos ⟨List.nodup_nil, by simp⟩]
  simp

/-- C9: The two ready accessors coincide: in every queue state,
`GetReadyTasks` and `GetReadyMethods` return the same underlying ready
bucket. -/
theorem ready_accessors_coincide (q : SchedulingQueue) :
    q.GetReadyTasks = q.GetReadyMethods := rfl

/-- C10: Initial emptiness: a freshly constructed `SchedulingQueue` has all
six buckets empty, so every accessor returns the empty sequence. -/
theorem new_queue_empty :
    SchedulingQueue.new.GetUncreatedActorMethods = []
    ∧ SchedulingQueue.new.GetWaitingTasks = []
    ∧ SchedulingQueue.new.GetReadyTasks = []
    ∧ SchedulingQueue.new.GetReadyMethods = []
    ∧ SchedulingQueue.new.GetScheduledTasks = []
    ∧ SchedulingQueue.new.GetRunningTasks = []
    ∧ SchedulingQueue.new.GetBlockedTasks = [] :=
  ⟨rfl, rfl, rfl, rfl, rfl, rfl, rfl⟩

end Raylet
